import Mathlib

/-!
Verification of the `process-pdf` edge function of the spies-trainbrain
repository.  Strings are modelled as `List Char`; JavaScript
`s.substring(i, j)` (with `0 ≤ i ≤ j`, clamped at the length) is
`(s.drop i).take (j - i)`.  External effects (the storage download, the
OpenAI HTTP calls, JSON parsing of the model reply, database updates) are
modelled as oracle values passed to the embedded functions, so that every
code path of the handlers is a case of the embedding.
-/

namespace ProcessPdf

/-- Chunk size used by the handler revision that performs chunking and
relevance filtering (`const CHUNK_SIZE = 100000`). -/
def CHUNK_SIZE : Nat := 100000

/-- The loop of `chunkText` (`for (let i = 0; i < text.length; i += chunkSize)
chunks.push(text.substring(i, i + chunkSize))`), indexed by fuel so that the
possible divergence at `chunkSize = 0` is representable: `none` means the
fuel was exhausted before the loop condition failed. -/
def chunkTextLoop (text : List Char) (chunkSize : Nat) : Nat → Nat → Option (List (List Char))
  | 0, _ => none
  | fuel + 1, i =>
    if i < text.length then
      match chunkTextLoop text chunkSize fuel (i + chunkSize) with
      | none => none
      | some rest => some ((text.drop i).take chunkSize :: rest)
    else
      some []

/-- `chunkText(text, chunkSize)` as defined at the bottom of the handler
(the revision without the null guard): the loop run from index 0.
`text.length + 1` units of fuel are enough whenever `chunkSize ≥ 1`. -/
def chunkText (text : List Char) (chunkSize : Nat) : Option (List (List Char)) :=
  chunkTextLoop text chunkSize (text.length + 1) 0

/-- `chunkText` of the first handler revision, which starts with
`if (!text) return [];` — a null, undefined or empty string yields `[]`
before the loop is entered.  The nullable argument is an `Option`. -/
def chunkTextV1 : Option (List Char) → Nat → Option (List (List Char))
  | none, _ => some []
  | some t, chunkSize => if t = [] then some [] else chunkText t chunkSize

/-- Total wrapper used by the orchestrator embedding; the handler only ever
calls `chunkText` with `CHUNK_SIZE = 100000 ≥ 1`, where the fuel suffices
and the default is never taken. -/
def chunksTotal (text : List Char) (chunkSize : Nat) : List (List Char) :=
  (chunkText text chunkSize).getD []

theorem chunkTextLoop_spec (text : List Char) (S : Nat) (hS : 1 ≤ S) :
    ∀ (fuel i : Nat), text.length - i < fuel →
      ∃ cs, chunkTextLoop text S fuel i = some cs ∧
        cs.flatten = text.drop i ∧
        (∀ c ∈ cs, c.length ≤ S) ∧
        (∀ c ∈ cs.dropLast, c.length = S) ∧
        cs.length = (text.length - i + S - 1) / S ∧
        (∀ k, (cs.take k).flatten = (text.drop i).take (k * S)) := by
  intro fuel
  induction fuel with
  | zero => intro i h; omega
  | succ fuel ih =>
    intro i h
    by_cases hi : i < text.length
    · obtain ⟨cs, hcs, hjoin, hle, hlast, hlen, htake⟩ := ih (i + S) (by omega)
      have hdd : text.drop (i + S) = (text.drop i).drop S := by
        rw [List.drop_drop, Nat.add_comm]
      refine ⟨(text.drop i).take S :: cs, ?_, ?_, ?_, ?_, ?_, ?_⟩
      · simp only [chunkTextLoop, if_pos hi, hcs]
      · rw [List.flatten_cons, hjoin, hdd, List.take_append_drop]
      · intro c hc
        rcases List.mem_cons.mp hc with rfl | hc
        · simp [List.length_take]
        · exact hle c hc
      · -- every chunk except possibly the last has length exactly S
        cases cs with
        | nil => intro c hc; simp at hc
        | cons b bs =>
          intro c hc
          rw [List.dropLast_cons_of_ne_nil (by simp)] at hc
          rcases List.mem_cons.mp hc with rfl | hc
          · -- head chunk: the tail is nonempty, so at least S characters remain
            have hbs : (b :: bs).length = (text.length - (i + S) + S - 1) / S := hlen
            have hpos : 1 ≤ (text.length - (i + S) + S - 1) / S := by
              rw [← hbs]; simp
            have hrem : S ≤ text.length - i := by
              by_contra hcon
              have h0 : text.length - (i + S) = 0 := by omega
              have : (text.length - (i + S) + S - 1) / S = 0 := by
                rw [h0]; exact Nat.div_eq_of_lt (by omega)
              omega
            simp [List.length_take, List.length_drop]
            omega
          · exact hlast c hc
      · -- chunk count
        have hlen' : (((text.drop i).take S :: cs)).length = cs.length + 1 := by simp
        rw [hlen', hlen]
        rcases Nat.lt_or_ge (text.length - i) (S + 1) with hsmall | hbig
        · -- last chunk: the recursive call produced no chunks
          have h0 : text.length - (i + S) = 0 := by omega
          have h1 : (text.length - (i + S) + S - 1) / S = 0 := by
            rw [h0]; exact Nat.div_eq_of_lt (by omega)
          have h2 : text.length - i + S - 1 = (text.length - i - 1) + S := by omega
          rw [h1, h2, Nat.add_div_right _ (by omega)]
          have : (text.length - i - 1) / S = 0 := Nat.div_eq_of_lt (by omega)
          omega
        · have h2 : text.length - i + S - 1 = (text.length - (i + S) + S - 1) + S := by
            omega
          rw [h2, Nat.add_div_right _ (by omega)]
      · intro k
        cases k with
        | zero => simp
        | succ k =>
          rw [List.take_succ_cons, List.flatten_cons, htake k, hdd]
          have : (k + 1) * S = S + k * S := by ring
          rw [this, List.take_add]
    · refine ⟨[], ?_, ?_, ?_, ?_, ?_, ?_⟩
      · simp only [chunkTextLoop, if_neg hi]
      · rw [List.flatten_nil, List.drop_eq_nil_of_le (by omega)]
      · intro c hc; simp at hc
      · intro c hc; simp at hc
      · have : text.length - i = 0 := by omega
        rw [this]
        simp
        exact (Nat.div_eq_of_lt (by omega)).symm
      · intro k
        rw [List.drop_eq_nil_of_le (by omega)]
        simp

/-- C1: for every text `T` and positive chunk size `S`, `chunkText` returns
the chunk sequence whose concatenation reproduces `T`, every chunk except
possibly the last has length exactly `S` (and all chunks have length at
most `S`), and the chunk count is `⌈|T| / S⌉ = (|T| + S - 1) / S`; a null
input (first revision) and an empty input yield the empty sequence. -/
theorem chunkText_correct (text : List Char) (S : Nat) (hS : 1 ≤ S) :
    (∃ cs, chunkText text S = some cs ∧
      cs.flatten = text ∧
      (∀ c ∈ cs, c.length ≤ S) ∧
      (∀ c ∈ cs.dropLast, c.length = S) ∧
      cs.length = (text.length + S - 1) / S) ∧
    chunkTextV1 none S = some [] ∧
    chunkText [] S = some [] := by
  obtain ⟨cs, hcs, hjoin, hle, hlast, hlen, -⟩ :=
    chunkTextLoop_spec text S hS (text.length + 1) 0 (by omega)
  refine ⟨⟨cs, hcs, ?_, hle, hlast, ?_⟩, rfl, rfl⟩
  · rw [hjoin]; rfl
  · rw [hlen]; simp

/-- Witness for C1 at `text = "abcde"`, `S = 2`. -/
theorem chunkText_correct_witness :
    (∃ cs, chunkText "abcde".data 2 = some cs ∧
      cs.flatten = "abcde".data ∧
      (∀ c ∈ cs, c.length ≤ 2) ∧
      (∀ c ∈ cs.dropLast, c.length = 2) ∧
      cs.length = ("abcde".data.length + 2 - 1) / 2) ∧
    chunkTextV1 none 2 = some [] ∧
    chunkText [] 2 = some [] :=
  chunkText_correct "abcde".data 2 (by omega)

/-- C10: with a positive chunk size the loop of `chunkText` terminates (the
fuel `|text| + 1` always suffices, so the result is `some`), and positivity
is necessary: with `chunkSize = 0` on a nonempty text the loop index never
advances and no amount of fuel finishes the loop. -/
theorem chunkText_terminates :
    (∀ (text : List Char) (S : Nat), 1 ≤ S → (chunkText text S).isSome) ∧
    (∀ text : List Char, text ≠ [] → ∀ fuel, chunkTextLoop text 0 fuel 0 = none) := by
  constructor
  · intro text S hS
    obtain ⟨cs, hcs, -⟩ := chunkTextLoop_spec text S hS (text.length + 1) 0 (by omega)
    rw [chunkText, hcs]
    rfl
  · intro text htext fuel
    induction fuel with
    | zero => rfl
    | succ fuel ih =>
      have hlen : 0 < text.length := List.length_pos.mpr htext
      simp only [chunkTextLoop, if_pos hlen, Nat.add_zero, ih]

/-- Witness for C10 at `text = "abc"` with `S = 2`, and at the nonempty
text `"x"` with `S = 0` and fuel 7. -/
theorem chunkText_terminates_witness :
    (chunkText "abc".data 2).isSome ∧ chunkTextLoop "x".data 0 7 0 = none :=
  ⟨chunkText_terminates.1 "abc".data 2 (by omega),
   chunkText_terminates.2 "x".data (by decide) 7⟩

/-! ### Relevance filter (`checkRelevance`) -/

/-- Result of a relevance check, the tagged variant returned by
`checkRelevance`: either `{isRelevant: false}` or
`{isRelevant: true, excerpt}`. -/
inductive RelevanceResult where
  | notRelevant : RelevanceResult
  | relevant (excerpt : List Char) : RelevanceResult
  deriving DecidableEq

/-- The filter model reply after an ok HTTP response.  `parsed` is the case
where `JSON.parse(result)` succeeds, carrying the truthiness of the
`isRelevant` field and the `excerpt` field (`none` when absent); `unparsed`
is the case where parsing throws, carrying the raw reply text. -/
inductive ModelReply where
  | parsed (isRelevant : Bool) (excerpt : Option (List Char)) : ModelReply
  | unparsed (raw : List Char) : ModelReply
  deriving DecidableEq

/-- Outcome of the filter-model HTTP call, the oracle input to
`checkRelevance`: the fetch (or anything inside the outer try) threw, or
the response was not ok, or it was ok with a reply. -/
inductive FilterOutcome where
  | exnRaised : FilterOutcome
  | respNotOk : FilterOutcome
  | respOk (reply : ModelReply) : FilterOutcome
  deriving DecidableEq

/-- JS `a || b` for an optional string `a`: both `undefined` and the empty
string are falsy, so they select `b`. -/
def jsOrString (a : Option (List Char)) (b : List Char) : List Char :=
  match a with
  | none => b
  | some s => if s = [] then b else s

/-- Whether `hay` starts with `needle` (character lists). -/
def listStartsWith : List Char → List Char → Bool
  | _, [] => true
  | [], _ :: _ => false
  | a :: hay, b :: needle => a == b && listStartsWith hay needle

/-- JS `hay.includes(needle)`: `needle` occurs contiguously in `hay`. -/
def jsIncludes : List Char → List Char → Bool
  | [], needle => needle.isEmpty
  | a :: rest, needle => listStartsWith (a :: rest) needle || jsIncludes rest needle

/-- JS `toLowerCase` (ASCII case folding via `Char.toLower`; the markers
searched for are plain ASCII). -/
def jsToLower (s : List Char) : List Char := s.map Char.toLower

/-- First affirmative relevance marker searched for in the raw reply. -/
def marker1 : List Char := "\"isrelevant\": true".data

/-- Second affirmative relevance marker searched for in the raw reply. -/
def marker2 : List Char := "\"isrelevant\":true".data

/-- `checkRelevance(chunk, question)`.  The question only feeds the request
body (as does the 5000-character preview of the chunk), so the returned
value is a function of the chunk and of the call outcome:
* fetch threw, or the response was not ok → fail open,
  `{isRelevant: true, excerpt: chunk.substring(0, 3000)}`;
* ok and `JSON.parse` succeeded → follow the parsed `isRelevant` flag,
  excerpt `parsed.excerpt || chunk.substring(0, 3000)`;
* ok and `JSON.parse` threw → search the lowercased raw text for an
  affirmative marker, fail closed to not relevant otherwise. -/
def checkRelevance (chunk : List Char) (outcome : FilterOutcome) : RelevanceResult :=
  match outcome with
  | .exnRaised => .relevant (chunk.take 3000)
  | .respNotOk => .relevant (chunk.take 3000)
  | .respOk (.parsed isRel exc) =>
    if isRel then .relevant (jsOrString exc (chunk.take 3000)) else .notRelevant
  | .respOk (.unparsed raw) =>
    if jsIncludes (jsToLower raw) marker1 || jsIncludes (jsToLower raw) marker2 then
      .relevant (chunk.take 3000)
    else
      .notRelevant

theorem listStartsWith_iff (hay needle : List Char) :
    listStartsWith hay needle = true ↔ ∃ t, hay = needle ++ t := by
  induction needle generalizing hay with
  | nil => simp [listStartsWith]
  | cons b bs ih =>
    cases hay with
    | nil => simp [listStartsWith]
    | cons a as =>
      simp only [listStartsWith, Bool.and_eq_true, beq_iff_eq, ih, List.cons_append,
        List.cons.injEq]
      constructor
      · rintro ⟨rfl, t, rfl⟩; exact ⟨t, rfl, rfl⟩
      · rintro ⟨t, rfl, rfl⟩; exact ⟨rfl, t, rfl⟩

theorem jsIncludes_iff (hay needle : List Char) :
    jsIncludes hay needle = true ↔ ∃ l r, hay = l ++ needle ++ r := by
  induction hay with
  | nil =>
    simp only [jsIncludes, List.isEmpty_iff]
    constructor
    · rintro rfl; exact ⟨[], [], rfl⟩
    · rintro ⟨l, r, h⟩
      rcases List.append_eq_nil.mp h.symm with ⟨h1, h2⟩
      exact (List.append_eq_nil.mp h1).2
  | cons a rest ih =>
    simp only [jsIncludes, Bool.or_eq_true, listStartsWith_iff, ih]
    constructor
    · rintro (⟨t, ht⟩ | ⟨l, r, hr⟩)
      · exact ⟨[], t, by simpa using ht⟩
      · exact ⟨a :: l, r, by simp [hr]⟩
    · rintro ⟨l, r, hl⟩
      cases l with
      | nil => exact Or.inl ⟨r, by simpa using hl⟩
      | cons x l =>
        rcases List.cons.injEq .. ▸ hl with ⟨rfl, h⟩
        exact Or.inr ⟨l, r, by simpa using hl⟩

/-- C2: when the filter-model call yields a non-ok response or raises any
exception, `checkRelevance` absorbs the failure and returns the relevant
variant whose excerpt is the 3000-character prefix of the chunk. -/
theorem checkRelevance_failOpen (chunk : List Char) (outcome : FilterOutcome)
    (h : outcome = .exnRaised ∨ outcome = .respNotOk) :
    checkRelevance chunk outcome = .relevant (chunk.take 3000) ∧
    (chunk.take 3000).length ≤ 3000 ∧ chunk.take 3000 <+: chunk := by
  refine ⟨?_, by simp [List.length_take], List.take_prefix _ _⟩
  rcases h with rfl | rfl <;> rfl

/-- Witness for C2 at `chunk = "abc"` and the exception outcome. -/
theorem checkRelevance_failOpen_witness :
    checkRelevance "abc".data .exnRaised = .relevant ("abc".data.take 3000) ∧
    ("abc".data.take 3000).length ≤ 3000 ∧ "abc".data.take 3000 <+: "abc".data :=
  checkRelevance_failOpen "abc".data .exnRaised (Or.inl rfl)

/-- C6: when the model reply cannot be parsed, `checkRelevance` decides by a
case-insensitive substring search of the raw text for an affirmative
marker: the result is the relevant variant with the 3000-character chunk
prefix exactly when a marker occurs in the lowercased raw text, and the
not-relevant variant otherwise. -/
theorem checkRelevance_parseFallback (chunk raw : List Char) :
    (checkRelevance chunk (.respOk (.unparsed raw)) = .relevant (chunk.take 3000) ↔
      (∃ l r, jsToLower raw = l ++ marker1 ++ r) ∨
      (∃ l r, jsToLower raw = l ++ marker2 ++ r)) ∧
    (checkRelevance chunk (.respOk (.unparsed raw)) = .notRelevant ↔
      ¬ ((∃ l r, jsToLower raw = l ++ marker1 ++ r) ∨
         (∃ l r, jsToLower raw = l ++ marker2 ++ r))) := by
  have hiff : (jsIncludes (jsToLower raw) marker1 || jsIncludes (jsToLower raw) marker2) = true ↔
      (∃ l r, jsToLower raw = l ++ marker1 ++ r) ∨
      (∃ l r, jsToLower raw = l ++ marker2 ++ r) := by
    rw [Bool.or_eq_true, jsIncludes_iff, jsIncludes_iff]
  constructor
  · rw [← hiff]
    unfold checkRelevance
    by_cases hb : (jsIncludes (jsToLower raw) marker1 || jsIncludes (jsToLower raw) marker2) = true
    · simp [hb]
    · simp [hb]
  · rw [← hiff]
    unfold checkRelevance
    by_cases hb : (jsIncludes (jsToLower raw) marker1 || jsIncludes (jsToLower raw) marker2) = true
    · simp [hb]
    · simp [hb]

/-- Witness for C6: a raw reply containing the first marker is treated as
relevant, and one containing neither marker is not relevant. -/
theorem checkRelevance_parseFallback_witness :
    checkRelevance "abc".data (.respOk (.unparsed "yes \"IsRelevant\": true!".data)) =
      .relevant ("abc".data.take 3000) ∧
    checkRelevance "abc".data (.respOk (.unparsed "no".data)) = .notRelevant := by
  constructor
  · exact (checkRelevance_parseFallback "abc".data "yes \"IsRelevant\": true!".data).1.mpr
      (Or.inl ⟨"yes ".data, "!".data, by decide⟩)
  · exact (checkRelevance_parseFallback "abc".data "no".data).2.mpr (by
      rintro (⟨l, r, h⟩ | ⟨l, r, h⟩) <;>
      · have := congrArg List.length h
        simp [jsToLower, marker1, marker2] at this
        omega)

/-- C7 counterexample: on a successfully parsed relevant reply the
model-provided excerpt is returned verbatim; here the excerpt `"zzzz"` is
not a substring of the chunk `"ab"` and is longer than the whole chunk, so
the excerpt of a relevant result need not be a bounded-length substring of
the chunk. -/
theorem checkRelevance_excerpt_counterexample :
    checkRelevance "ab".data (.respOk (.parsed true (some "zzzz".data))) =
      .relevant "zzzz".data ∧
    (¬ ∃ l r, "ab".data = l ++ "zzzz".data ++ r) ∧
    "zzzz".data.length > "ab".data.length := by
  refine ⟨rfl, ?_, by decide⟩
  rintro ⟨l, r, h⟩
  have := congrArg List.length h
  simp at this
  omega

/-- C7 amended: the excerpt of every relevant result is either the
model-provided excerpt verbatim (a successfully parsed relevant reply with
a nonempty excerpt field — not necessarily a substring of the chunk), or
the 3000-character prefix of the chunk (model excerpt absent or empty,
parse-failure marker fallback, or call-failure fail-open). -/
theorem checkRelevance_excerpt_source (chunk : List Char) (outcome : FilterOutcome)
    (e : List Char) (h : checkRelevance chunk outcome = .relevant e) :
    (∃ provided, outcome = .respOk (.parsed true (some provided)) ∧ provided ≠ [] ∧
      e = provided) ∨
    (e = chunk.take 3000 ∧ e.length ≤ 3000 ∧ e <+: chunk) := by
  have hpre : chunk.take 3000 <+: chunk := List.take_prefix _ _
  have hlen : (chunk.take 3000).length ≤ 3000 := by simp [List.length_take]
  cases outcome with
  | exnRaised =>
    right
    have he : e = chunk.take 3000 := by
      have := h.symm.trans (rfl : checkRelevance chunk .exnRaised = .relevant (chunk.take 3000))
      exact (RelevanceResult.relevant.injEq .. ▸ this)
    subst he; exact ⟨rfl, hlen, hpre⟩
  | respNotOk =>
    right
    have he : e = chunk.take 3000 := by
      have := h.symm.trans (rfl : checkRelevance chunk .respNotOk = .relevant (chunk.take 3000))
      exact (RelevanceResult.relevant.injEq .. ▸ this)
    subst he; exact ⟨rfl, hlen, hpre⟩
  | respOk reply =>
    cases reply with
    | parsed isRel exc =>
      cases isRel with
      | false => simp [checkRelevance] at h
      | true =>
        simp only [checkRelevance, if_pos rfl] at h
        cases exc with
        | none =>
          right
          have he : e = chunk.take 3000 := by
            simpa [jsOrString] using h.symm
          subst he; exact ⟨rfl, hlen, hpre⟩
        | some s =>
          by_cases hs : s = []
          · right
            have he : e = chunk.take 3000 := by
              simp [jsOrString, hs] at h
              exact h.symm
            subst he; exact ⟨rfl, hlen, hpre⟩
          · left
            refine ⟨s, rfl, hs, ?_⟩
            simp [jsOrString, hs] at h
            exact h.symm
    | unparsed raw =>
      simp only [checkRelevance] at h
      by_cases hb : (jsIncludes (jsToLower raw) marker1 ||
          jsIncludes (jsToLower raw) marker2) = true
      · right
        rw [if_pos hb] at h
        have he : e = chunk.take 3000 := by
          have := RelevanceResult.relevant.injEq .. ▸ h
          exact this.symm
        subst he; exact ⟨rfl, hlen, hpre⟩
      · rw [if_neg hb] at h
        exact absurd h (by simp)

/-- Witness for C7 (amended) at `chunk = "ab"` with the fail-open outcome. -/
theorem checkRelevance_excerpt_source_witness :
    (∃ provided, FilterOutcome.exnRaised = .respOk (.parsed true (some provided)) ∧
      provided ≠ [] ∧ "ab".data.take 3000 = provided) ∨
    ("ab".data.take 3000 = "ab".data.take 3000 ∧
      ("ab".data.take 3000).length ≤ 3000 ∧ "ab".data.take 3000 <+: "ab".data) :=
  checkRelevance_excerpt_source "ab".data .exnRaised ("ab".data.take 3000) rfl

/-! ### Cross-document and single-document orchestration (the revision
with chunking and relevance filtering) -/

/-- JS `String.prototype.trim` (whitespace via `Char.isWhitespace`). -/
def jsTrim (s : List Char) : List Char :=
  ((s.dropWhile Char.isWhitespace).reverse.dropWhile Char.isWhitespace).reverse

/-- A document as seen by the cross-document loop after the fetch-content
phase: its title and its `content` field (`none` when still absent). -/
structure CrossDoc where
  title : List Char
  content : Option (List Char)

/-- The chunks scanned for one document: none when the guard
`doc.content && doc.content.trim() !== ''` fails, else
`chunkText(doc.content, CHUNK_SIZE)`. -/
def docChunks (d : CrossDoc) : List (List Char) :=
  match d.content with
  | none => []
  | some c => if jsTrim c = [] then [] else chunksTotal c CHUNK_SIZE

/-- The string pushed for a relevant chunk:
`Document "${doc.title}":\n${relevanceCheck.excerpt}`. -/
def docLabel (title excerpt : List Char) : List Char :=
  "Document \"".data ++ title ++ "\":\n".data ++ excerpt

/-- One document's contribution to `relevantContentChunks`: the labelled
excerpts of its chunks judged relevant, in chunk order. -/
def docRelevantChunks (oracle : List Char → FilterOutcome) (d : CrossDoc) :
    List (List Char) :=
  (docChunks d).filterMap fun chunk =>
    match checkRelevance chunk (oracle chunk) with
    | .relevant e => some (docLabel d.title e)
    | .notRelevant => none

/-- `relevantContentChunks` accumulated by the nested
for-each-document/for-each-chunk loops. -/
def relevantContentChunks (oracle : List Char → FilterOutcome)
    (docs : List CrossDoc) : List (List Char) :=
  (docs.map (docRelevantChunks oracle)).flatten

/-- The fixed terminal reply used when no relevant content was found. -/
def nothingRelevantMsg : List Char :=
  'I' :: Char.ofNat 39 ::
    "ve analyzed all the documents, but nothing relevant could be found.".data

/-- The cross-document prompt built from the question and the combined
relevant excerpts. -/
def crossDocPrompt (question combined : List Char) : List Char :=
  ("Based on the following relevant excerpts from documents, please analyze " ++
    "and answer this question: \"").data ++ question ++
  "\"\n\nIf you cannot find information to answer with high confidence, respond with \"".data ++
  nothingRelevantMsg ++ "\"\n\nRelevant excerpts:\n".data ++ combined

/-- Outcome of the cross-document branch: the analysis text of the HTTP
response together with how many main-model completion calls were made. -/
structure CrossDocOutcome where
  analysis : List Char
  mainModelCalls : Nat
  deriving DecidableEq

/-- The cross-document branch after the fetch-content phase: collect the
relevant labelled excerpts; with zero of them, short-circuit to the fixed
reply without calling the main model, else join them with blank lines and
make the single main-model call on the assembled prompt. -/
def crossDocServe (oracle : List Char → FilterOutcome)
    (mainModel : List Char → List Char) (question : List Char)
    (docs : List CrossDoc) : CrossDocOutcome :=
  let found := relevantContentChunks oracle docs
  if found.length = 0 then
    { analysis := nothingRelevantMsg, mainModelCalls := 0 }
  else
    { analysis := mainModel (crossDocPrompt question (List.intercalate "\n\n".data found)),
      mainModelCalls := 1 }

/-- C3: in cross-document mode, when every chunk of every document is
judged not relevant, the orchestrator replies with the fixed
nothing-relevant message and the main model is called zero times. -/
theorem crossDoc_shortCircuit (oracle : List Char → FilterOutcome)
    (mainModel : List Char → List Char) (question : List Char) (docs : List CrossDoc)
    (h : ∀ d ∈ docs, ∀ chunk ∈ docChunks d,
      checkRelevance chunk (oracle chunk) = .notRelevant) :
    crossDocServe oracle mainModel question docs =
      { analysis := nothingRelevantMsg, mainModelCalls := 0 } := by
  have hnil : relevantContentChunks oracle docs = [] := by
    unfold relevantContentChunks
    rw [List.flatten_eq_nil_iff]
    intro l hl
    rcases List.mem_map.mp hl with ⟨d, hd, rfl⟩
    unfold docRelevantChunks
    rw [List.filterMap_eq_nil_iff]
    intro chunk hchunk
    rw [h d hd chunk hchunk]
  unfold crossDocServe
  rw [hnil]
  rfl

/-- Witness for C3: one document whose single chunk the filter judges not
relevant. -/
theorem crossDoc_shortCircuit_witness :
    crossDocServe (fun _ => .respOk (.parsed false none)) (fun _ => [])
      "q".data [⟨"t".data, some "hi".data⟩] =
      { analysis := nothingRelevantMsg, mainModelCalls := 0 } :=
  crossDoc_shortCircuit (fun _ => .respOk (.parsed false none)) (fun _ => [])
    "q".data [⟨"t".data, some "hi".data⟩] (by decide)

/-- `relevantChunks` of the single-document question branch: the excerpts
of the document chunks judged relevant. -/
def relevantChunksSingle (oracle : List Char → FilterOutcome)
    (content : List Char) : List (List Char) :=
  (chunksTotal content CHUNK_SIZE).filterMap fun chunk =>
    match checkRelevance chunk (oracle chunk) with
    | .relevant e => some e
    | .notRelevant => none

/-- `contentForAnalysis` of the single-document question branch: the
relevant excerpts joined by blank lines when there are any, else the
`CHUNK_SIZE * 3` prefix of the raw document content. -/
def contentForAnalysis (oracle : List Char → FilterOutcome)
    (content : List Char) : List Char :=
  let rel := relevantChunksSingle oracle content
  if rel.length > 0 then List.intercalate "\n\n".data rel
  else content.take (CHUNK_SIZE * 3)

/-- C9: in single-document mode with a question, when every chunk is judged
not relevant the content for analysis falls back to the `CHUNK_SIZE * 3`
prefix of the raw content — exactly the first three raw chunks — and is
nonempty whenever the document text is. -/
theorem singleDoc_fallback (oracle : List Char → FilterOutcome) (content : List Char)
    (h : ∀ chunk ∈ chunksTotal content CHUNK_SIZE,
      checkRelevance chunk (oracle chunk) = .notRelevant) :
    contentForAnalysis oracle content = content.take (CHUNK_SIZE * 3) ∧
    contentForAnalysis oracle content = ((chunksTotal content CHUNK_SIZE).take 3).flatten ∧
    (content ≠ [] → contentForAnalysis oracle content ≠ []) := by
  have hnil : relevantChunksSingle oracle content = [] := by
    unfold relevantChunksSingle
    rw [List.filterMap_eq_nil_iff]
    intro chunk hchunk
    rw [h chunk hchunk]
  have hfall : contentForAnalysis oracle content = content.take (CHUNK_SIZE * 3) := by
    unfold contentForAnalysis
    rw [hnil]
    rfl
  obtain ⟨cs, hcs, -, -, -, -, htake⟩ :=
    chunkTextLoop_spec content CHUNK_SIZE (by norm_num [CHUNK_SIZE])
      (content.length + 1) 0 (by omega)
  have hchunks : chunksTotal content CHUNK_SIZE = cs := by
    unfold chunksTotal chunkText
    rw [hcs]
    rfl
  refine ⟨hfall, ?_, ?_⟩
  · rw [hfall, hchunks, htake 3]
    simp [Nat.mul_comm]
  · intro hne
    rw [hfall]
    cases content with
    | nil => exact absurd rfl hne
    | cons a t =>
      have h3 : CHUNK_SIZE * 3 = 299999 + 1 := by norm_num [CHUNK_SIZE]
      rw [h3, List.take_succ_cons]
      simp

/-- Witness for C9 at `content = "hi"` and a filter oracle that judges
every chunk not relevant. -/
theorem singleDoc_fallback_witness :
    contentForAnalysis (fun _ => .respOk (.parsed false none)) "hi".data =
      "hi".data.take (CHUNK_SIZE * 3) ∧
    contentForAnalysis (fun _ => .respOk (.parsed false none)) "hi".data =
      ((chunksTotal "hi".data CHUNK_SIZE).take 3).flatten ∧
    ("hi".data ≠ [] → contentForAnalysis (fun _ => .respOk (.parsed false none)) "hi".data ≠ []) :=
  singleDoc_fallback (fun _ => .respOk (.parsed false none)) "hi".data (by decide)

/-! ### Content budgeter and the two cross-document assembly revisions -/

/-- The strict-prefix content cap
(`if (content.length > k) content = content.substring(0, k)`), used for the
combined content in both capped revisions and for the per-document content
in the first capped revision. -/
def budget (content : List Char) (k : Nat) : List Char :=
  if content.length > k then content.take k else content

theorem budget_length_le (content : List Char) (k : Nat) :
    (budget content k).length ≤ k := by
  unfold budget
  by_cases h : content.length > k
  · rw [if_pos h]; simp [List.length_take]
  · rw [if_neg h]; omega

theorem budget_of_gt (content : List Char) (k : Nat) (h : k < content.length) :
    budget content k = content.take k := by
  unfold budget
  rw [if_pos h]

theorem budget_of_le (content : List Char) (k : Nat) (h : content.length ≤ k) :
    budget content k = content := by
  unfold budget
  rw [if_neg (by omega)]

/-- The marker spliced between the kept start and end portions by the
second capped revision. -/
def omissionMarker : List Char := "\n\n[...content omitted for length...]\n\n".data

/-- Per-document truncation of the second capped revision: over the limit,
keep `Math.floor(maxSize * 0.7)` characters from the start and the
remaining `maxSize - startPortion` characters from the end, spliced with
the omission marker.  At the two configured sizes (10000 and 20000) the
floating-point product is exact, so the start portion is
`7 * maxSize / 10`. -/
def capDocV2 (c : List Char) (maxSize : Nat) : List Char :=
  if c.length > maxSize then
    c.take (7 * maxSize / 10) ++ omissionMarker ++
      c.drop (c.length - (maxSize - 7 * maxSize / 10))
  else c

theorem capDocV2_length_le (c : List Char) (m : Nat) :
    (capDocV2 c m).length ≤ m + omissionMarker.length := by
  unfold capDocV2
  have h7 : 7 * m / 10 ≤ m := by
    calc 7 * m / 10 ≤ 10 * m / 10 := Nat.div_le_div_right (by omega)
    _ = m := Nat.mul_div_cancel_left m (by omega)
  by_cases h : c.length > m
  · rw [if_pos h]
    simp only [List.length_append, List.length_take, List.length_drop]
    omega
  · rw [if_neg h]; omega

/-- C4 counterexample: the per-document truncation of the second capped
revision is not a strict-prefix cap.  On a 10001-character document with
the configured ceiling 10000, its output is 10038 characters long
(exceeding the ceiling), differs from the 10000-character prefix, and is
not a prefix of the input at all (the spliced marker is not document
text). -/
theorem budget_perDoc_counterexample :
    (capDocV2 (List.replicate 10001 'a') 10000).length = 10038 ∧
    ¬ (capDocV2 (List.replicate 10001 'a') 10000).length ≤ 10000 ∧
    capDocV2 (List.replicate 10001 'a') 10000 ≠
      (List.replicate 10001 'a' : List Char).take 10000 ∧
    ¬ capDocV2 (List.replicate 10001 'a') 10000 <+: List.replicate 10001 'a' := by
  have hmarker : omissionMarker.length = 38 := rfl
  have hstart : 7 * 10000 / 10 = 7000 := by norm_num
  have hrep : (List.replicate 10001 'a' : List Char).length = 10001 :=
    List.length_replicate ..
  have hlen : (capDocV2 (List.replicate 10001 'a') 10000).length = 10038 := by
    unfold capDocV2
    rw [if_pos (by rw [hrep]; omega)]
    simp only [List.length_append, List.length_take, List.length_drop, hrep,
      hmarker, hstart]
    norm_num
  refine ⟨hlen, by omega, ?_, ?_⟩
  · intro h
    have := congrArg List.length h
    rw [hlen, List.length_take, hrep] at this
    omega
  · intro h
    obtain ⟨t, ht⟩ := h
    have hmem : '\n' ∈ capDocV2 (List.replicate 10001 'a') 10000 := by
      unfold capDocV2
      rw [if_pos (by rw [hrep]; omega)]
      refine List.mem_append.mpr (Or.inl (List.mem_append.mpr (Or.inr ?_)))
      decide
    have : '\n' ∈ (List.replicate 10001 'a' : List Char) := by
      rw [← ht]
      exact List.mem_append.mpr (Or.inl hmem)
    exact absurd (List.eq_of_mem_replicate this) (by decide)

/-- C4 amended: for all content `C` and ceiling `K` the strict-prefix
budgeter `budget` satisfies the stated contract (output length at most
`K`, the `K`-prefix when over the ceiling, unchanged otherwise); it is the
cap applied to combined content in both capped revisions and to
per-document content in the first, while the second revision truncates
per-document content by splicing a start and an end portion instead. -/
theorem budget_correct (C : List Char) (K : Nat) :
    (budget C K).length ≤ K ∧
    (K < C.length → budget C K = C.take K) ∧
    (C.length ≤ K → budget C K = C) :=
  ⟨budget_length_le C K, budget_of_gt C K, budget_of_le C K⟩

/-- Witness for C4 (amended) at `C = "hello"`, ceilings 3 and 9. -/
theorem budget_correct_witness :
    (budget "hello".data 3).length ≤ 3 ∧
    budget "hello".data 3 = "hello".data.take 3 ∧
    budget "hello".data 9 = "hello".data :=
  ⟨(budget_correct "hello".data 3).1,
   (budget_correct "hello".data 3).2.1 (by decide),
   (budget_correct "hello".data 9).2.2 (by decide)⟩

/-- A document of the first capped revision: client-sent `content` (absent
as `none`) and the storage download/text-extraction outcome. -/
structure DocV1 where
  title : List Char
  content : Option (List Char)
  download : Except Unit (List Char)

/-- Content resolution of the first capped revision: use the client
content unless it is falsy or trim-blank, else the downloaded text; a
failed download or empty final text skips the document. -/
def resolveV1 (d : DocV1) : Option (List Char) :=
  let viaDownload : Option (List Char) :=
    match d.download with
    | .ok t => if t = [] then none else some t
    | .error _ => none
  match d.content with
  | none => viaDownload
  | some c => if c = [] ∨ jsTrim c = [] then viaDownload else some c

/-- `MAX_DOCUMENT_SAMPLE = 1` of the first capped revision. -/
def MAX_DOCUMENT_SAMPLE : Nat := 1

/-- The capped per-document contents assembled by the first capped
revision (cap 5000 each). -/
def docContentsV1 (docs : List DocV1) : List (List Char) :=
  (docs.take MAX_DOCUMENT_SAMPLE).filterMap fun d =>
    match resolveV1 d with
    | none => none
    | some c => some (budget c 5000)

/-- The labelled section appended per document by the first capped
revision: `Document "${title}":\n${content}\n\n`. -/
def docSectionV1 (title content : List Char) : List Char :=
  "Document \"".data ++ title ++ "\":\n".data ++ content ++ "\n\n".data

/-- `combinedContent` accumulated by the first capped revision. -/
def combinedContentV1 (docs : List DocV1) : List Char :=
  ((docs.take MAX_DOCUMENT_SAMPLE).filterMap fun d =>
    match resolveV1 d with
    | none => none
    | some c => some (docSectionV1 d.title (budget c 5000))).flatten

/-- The combined content after the hard 3000-character cap of the first
capped revision — the documents-content portion of its final prompt. -/
def finalCombinedV1 (docs : List DocV1) : List Char :=
  budget (combinedContentV1 docs) 3000

/-- A document of the second capped revision: title and the outcome of
download plus decode plus cleanup (always fetched from storage). -/
structure DocV2 where
  title : List Char
  extracted : Except Unit (List Char)

/-- Per-document ceiling of the second capped revision. -/
def maxDocSize (includeFullContent : Bool) : Nat :=
  if includeFullContent then 20000 else 10000

/-- Combined ceiling of the second capped revision. -/
def maxCombinedSize (includeFullContent : Bool) : Nat :=
  if includeFullContent then 40000 else 20000

/-- The capped per-document contents of the second capped revision. -/
def docContentsV2 (full : Bool) (docs : List DocV2) : List (List Char) :=
  docs.filterMap fun d =>
    match d.extracted with
    | .error _ => none
    | .ok c => if c = [] then none else some (capDocV2 c (maxDocSize full))

/-- The labelled section appended per document by the second capped
revision. -/
def docSectionV2 (title content : List Char) : List Char :=
  "\n\n### Document: \"".data ++ title ++ "\"\n\n".data ++ content ++ "\n\n".data

/-- `combinedContent` accumulated by the second capped revision. -/
def combinedContentV2 (full : Bool) (docs : List DocV2) : List Char :=
  (docs.filterMap fun d =>
    match d.extracted with
    | .error _ => none
    | .ok c =>
      if c = [] then none
      else some (docSectionV2 d.title (capDocV2 c (maxDocSize full)))).flatten

/-- The combined content after the combined cap of the second capped
revision — the documents-content portion of its final prompt. -/
def finalCombinedV2 (full : Bool) (docs : List DocV2) : List Char :=
  budget (combinedContentV2 full docs) (maxCombinedSize full)

/-- C5 counterexample: in the second capped revision (the default
`includeFullContent = false` ceilings 10000 per document and 20000
combined), a single 10001-character document produces a per-document
content piece of 10038 characters — the per-document ceiling does not hold
on the assembled content, refuting that both configured ceilings hold
simultaneously. -/
theorem ceilings_counterexample :
    docContentsV2 false [⟨"t".data, .ok (List.replicate 10001 'a')⟩] =
      [capDocV2 (List.replicate 10001 'a') (maxDocSize false)] ∧
    maxDocSize false < (capDocV2 (List.replicate 10001 'a') (maxDocSize false)).length := by
  constructor
  · rfl
  · have hmarker : omissionMarker.length = 38 := rfl
    have hstart : 7 * 10000 / 10 = 7000 := by norm_num
    have hm : maxDocSize false = 10000 := rfl
    have hrep : (List.replicate 10001 'a' : List Char).length = 10001 :=
      List.length_replicate ..
    rw [hm]
    unfold capDocV2
    rw [if_pos (by rw [hrep]; omega)]
    simp only [List.length_append, List.length_take, List.length_drop, hrep,
      hmarker, hstart]
    norm_num

/-- C5 amended: the combined ceiling holds on the assembled content of
both capped revisions, and the per-document ceiling holds exactly in the
first capped revision; in the second it holds only up to the spliced
omission marker (per-document pieces are at most the ceiling plus the
38-character marker). -/
theorem ceilings_amended :
    (∀ docs : List DocV1,
      (finalCombinedV1 docs).length ≤ 3000 ∧
      ∀ p ∈ docContentsV1 docs, p.length ≤ 5000) ∧
    (∀ (full : Bool) (docs : List DocV2),
      (finalCombinedV2 full docs).length ≤ maxCombinedSize full ∧
      ∀ p ∈ docContentsV2 full docs, p.length ≤ maxDocSize full + omissionMarker.length) := by
  constructor
  · intro docs
    refine ⟨budget_length_le _ _, ?_⟩
    intro p hp
    rcases List.mem_filterMap.mp hp with ⟨d, -, hd⟩
    cases hr : resolveV1 d with
    | none => rw [hr] at hd; exact absurd hd (by simp)
    | some c =>
      rw [hr] at hd
      have : p = budget c 5000 := by simpa using hd.symm
      rw [this]
      exact budget_length_le c 5000
  · intro full docs
    refine ⟨budget_length_le _ _, ?_⟩
    intro p hp
    rcases List.mem_filterMap.mp hp with ⟨d, -, hd⟩
    cases he : d.extracted with
    | error e => rw [he] at hd; exact absurd hd (by simp)
    | ok c =>
      rw [he] at hd
      by_cases hc : c = []
      · simp [hc] at hd
      · simp only [hc, if_false, Option.some.injEq] at hd
        rw [← hd]
        exact capDocV2_length_le c (maxDocSize full)

/-- Witness for C5 (amended) at concrete one-document requests for each
revision. -/
theorem ceilings_amended_witness :
    (finalCombinedV1 [⟨"t".data, some "hello".data, Except.ok []⟩]).length ≤ 3000 ∧
    (budget "hello".data 5000).length ≤ 5000 ∧
    (finalCombinedV2 false [⟨"t".data, Except.ok "hi".data⟩]).length ≤ maxCombinedSize false ∧
    (capDocV2 "hi".data (maxDocSize false)).length ≤
      maxDocSize false + omissionMarker.length :=
  ⟨(ceilings_amended.1 [⟨"t".data, some "hello".data, Except.ok []⟩]).1,
   (ceilings_amended.1 [⟨"t".data, some "hello".data, Except.ok []⟩]).2 _ (by decide),
   (ceilings_amended.2 false [⟨"t".data, Except.ok "hi".data⟩]).1,
   (ceilings_amended.2 false [⟨"t".data, Except.ok "hi".data⟩]).2 _ (by decide)⟩

/-! ### Cache-back persistence -/

/-- Shape of the HTTP reply of the single-document summary path: a 200
success with the analysis, or the 500 error produced by the top-level
catch for a thrown message. -/
inductive QueryOutcome where
  | success (analysis : List Char) : QueryOutcome
  | serverError (message : List Char) : QueryOutcome
  deriving DecidableEq

/-- Summary tail of the chunking revision (the claim's cited lines): store
the analysis; an update error is thrown (`Error updating document
analysis`) and surfaces as a 500 error response via the top-level catch,
else respond with the analysis. -/
def storeAnalysisAndRespondV3 (analysis : List Char)
    (updateOutcome : Except Unit Unit) : QueryOutcome :=
  match updateOutcome with
  | .error _ => .serverError "Error updating document analysis".data
  | .ok _ => .success analysis

/-- Content cache-back of the chunking revision (the claim's other cited
lines): persist the downloaded text; an update error is thrown (`Error
updating document content`), aborting the query, else resolution proceeds
with the text. -/
def storeContentV3 (text : List Char) (updateOutcome : Except Unit Unit) :
    Except (List Char) (List Char) :=
  match updateOutcome with
  | .error _ => .error "Error updating document content".data
  | .ok _ => .ok text

/-- Summary tail of the later revision: the analysis update and the
conditional content update sit in a dedicated try/catch whose outcomes are
only logged, so the response is the success analysis regardless. -/
def storeAnalysisAndRespondV2 (analysis : List Char)
    (_analysisUpdate _contentUpdate : Except Unit Unit) : QueryOutcome :=
  .success analysis

/-- C8 counterexample: at the claim's cited lines a failing cache-back
update does fail the surrounding query — the analysis update error turns
the reply into a 500 server error instead of the unchanged success, and
the content update error aborts resolution. -/
theorem persistence_counterexample :
    storeAnalysisAndRespondV3 "s".data (.error ()) =
      .serverError "Error updating document analysis".data ∧
    storeAnalysisAndRespondV3 "s".data (.error ()) ≠ .success "s".data ∧
    storeContentV3 "t".data (.error ()) =
      .error "Error updating document content".data := by
  exact ⟨rfl, by decide, rfl⟩

/-- C8 amended: in the later revision of the summary path a cache-back
persistence failure is only logged and the success response is unchanged;
in the revision at the cited lines the update error is instead thrown, so
the query fails with the corresponding error whenever persistence fails
and succeeds otherwise. -/
theorem persistence_amended (analysis : List Char) (o1 o2 : Except Unit Unit) :
    storeAnalysisAndRespondV2 analysis o1 o2 = .success analysis ∧
    storeAnalysisAndRespondV3 analysis (.ok ()) = .success analysis ∧
    (∀ e, storeAnalysisAndRespondV3 analysis (.error e) =
      .serverError "Error updating document analysis".data) ∧
    storeContentV3 analysis (.ok ()) = .ok analysis ∧
    (∀ e, storeContentV3 analysis (.error e) =
      .error "Error updating document content".data) :=
  ⟨rfl, rfl, fun _ => rfl, rfl, fun _ => rfl⟩

end ProcessPdf
